import Mathlib

/-!
Shallow embedding of the booking register `src/41_parallelo_app.py`
(Streamlit + SQLite, second file variant with the iCal reconciler).

Calendar dates are modelled as integers (day numbers): SQLite stores the
`date` values as ISO strings whose ordering is day ordering.  The `bookings`
table is a list of rows plus the AUTOINCREMENT counter.  Monetary amounts
only ever appear as the constant 0 in the verified claims, so `price` is an
integer.  Timestamps (`created_at`, `updated_at`) are integers supplied by a
`now` parameter standing for CURRENT_TIMESTAMP.
-/

namespace Parallelo

/-- A row of the `bookings` table (schema in CREATE_TABLE_SQL of the iCal
variant): nullable columns are `Option`, `id` is the AUTOINCREMENT key. -/
structure Booking where
  id : Nat
  guest_name : String
  email : Option String
  phone : Option String
  source : String
  room : String
  status : String
  check_in : Int
  check_out : Int
  guests : Int
  price : Int
  notes : Option String
  external_source : Option String
  external_uid : Option String
  created_at : Int
  updated_at : Int
deriving DecidableEq, Repr

/-- The SQLite database: the `bookings` table and its AUTOINCREMENT state. -/
structure Store where
  bookings : List Booking
  next_id : Nat
deriving DecidableEq, Repr

/-- The `data` dict passed to `insert_booking` / `update_booking`.  A key the
caller's dict does not contain reaches the SQL as `data.get(k) = None`, i.e.
`none` here (relevant: the edit form passes no `external_source` /
`external_uid`, so an UPDATE from it writes NULL to both columns). -/
structure BookingData where
  guest_name : String
  email : Option String
  phone : Option String
  source : String
  room : String
  status : String
  check_in : Int
  check_out : Int
  guests : Int
  price : Int
  notes : Option String
  external_source : Option String
  external_uid : Option String
deriving DecidableEq, Repr

/-- `insert_booking`: INSERT of all 13 caller-supplied columns; the row gets
the next AUTOINCREMENT id and CURRENT_TIMESTAMP in `created_at`/`updated_at`;
returns `cur.lastrowid`. -/
def insert_booking (data : BookingData) (now : Int) (st : Store) : Store × Nat :=
  (⟨st.bookings ++
      [⟨st.next_id, data.guest_name, data.email, data.phone, data.source, data.room,
        data.status, data.check_in, data.check_out, data.guests, data.price, data.notes,
        data.external_source, data.external_uid, now, now⟩],
    st.next_id + 1⟩,
   st.next_id)

/-- The SET clause of `update_booking` applied to one matching row: every one
of the 13 listed columns is written from `data`, plus
`updated_at = CURRENT_TIMESTAMP`; `id` and `created_at` are not in the list. -/
def applySet (data : BookingData) (now : Int) (b : Booking) : Booking :=
  ⟨b.id, data.guest_name, data.email, data.phone, data.source, data.room,
   data.status, data.check_in, data.check_out, data.guests, data.price, data.notes,
   data.external_source, data.external_uid, b.created_at, now⟩

/-- `update_booking`: `UPDATE bookings SET ... WHERE id = ?`.  Rows whose id
differs are untouched; a missing id updates nothing and raises nothing. -/
def update_booking (booking_id : Nat) (data : BookingData) (now : Int) (st : Store) : Store :=
  ⟨st.bookings.map (fun b => if b.id = booking_id then applySet data now b else b),
   st.next_id⟩

/-- The WHERE clause of `has_overlap`: `room = ? AND status != 'Annullata'
AND date(check_in) < date(check_out_candidate) AND date(check_out) >
date(check_in_candidate)`, plus `AND id != ?` when `exclude_id` is given. -/
def overlapPred (check_in check_out : Int) (room : String) (exclude_id : Option Nat)
    (b : Booking) : Bool :=
  b.room == room && b.status != "Annullata" &&
    decide (b.check_in < check_out) && decide (b.check_out > check_in) &&
    (match exclude_id with
     | some e => b.id != e
     | none => true)

/-- `has_overlap`: returns `(len(df) > 0, df)` for the rows selected by
`overlapPred`. -/
def has_overlap (check_in check_out : Int) (room : String) (exclude_id : Option Nat)
    (st : Store) : Bool × List Booking :=
  let df := st.bookings.filter (overlapPred check_in check_out room exclude_id)
  (decide (df.length > 0), df)

/-! ### SQL LIKE

`fetch_bookings` builds `guest_name LIKE '%s%' OR ...` with the raw search
string spliced into the pattern.  SQLite's LIKE is case-insensitive on the
ASCII letters only, `%` matches any sequence, `_` matches any single
character, and with no ESCAPE clause every other character is literal.
`Char.toLower` lowercases exactly the ASCII range, matching SQLite. -/

/-- One pattern character against one text character, ASCII-case-insensitively. -/
def lowerEq (a b : Char) : Bool := a.toLower == b.toLower

/-- SQLite LIKE over character lists: `%` matches any (possibly empty)
suffix-producing span, `_` any one character, others themselves up to ASCII
case. -/
def likeMatch : List Char → List Char → Bool
  | [], s => s.isEmpty
  | p :: ps, s =>
    if p = '%' then s.tails.any (fun t => likeMatch ps t)
    else
      match s with
      | [] => false
      | c :: s2 => ((p == '_') || lowerEq p c) && likeMatch ps s2

/-- The pattern `f"%{search}%"` that `fetch_bookings` builds. -/
def likePattern (search : String) : List Char := '%' :: (search.data ++ ['%'])

/-- `column LIKE '%search%'` on a nullable column: `NULL LIKE p` is NULL,
which the WHERE clause treats as false. -/
def likeOpt (search : String) (field : Option String) : Bool :=
  match field with
  | none => false
  | some f => likeMatch (likePattern search) f.data

/-- The free-text disjunct of `fetch_bookings`:
`guest_name LIKE ? OR email LIKE ? OR phone LIKE ? OR notes LIKE ?`. -/
def textMatch (search : String) (b : Booking) : Bool :=
  likeOpt search (some b.guest_name) || likeOpt search b.email ||
    likeOpt search b.phone || likeOpt search b.notes

/-- The accumulated WHERE clause of `fetch_bookings`.  A `none` argument is a
Python `None` (filter absent); the sentinels mirror the code: `status` and
`room` filter only when truthy and different from "Tutte", `search` only when
a non-empty string (`if search:`). -/
def fetchPred (start end_ : Option Int) (status room search : Option String)
    (b : Booking) : Bool :=
  (match start with
   | some s => decide (b.check_out > s)
   | none => true) &&
  (match end_ with
   | some e => decide (b.check_in < e)
   | none => true) &&
  (match status with
   | some v => if v ≠ "" ∧ v ≠ "Tutte" then b.status == v else true
   | none => true) &&
  (match room with
   | some v => if v ≠ "" ∧ v ≠ "Tutte" then b.room == v else true
   | none => true) &&
  (match search with
   | some q => if q ≠ "" then textMatch q b else true
   | none => true)

/-- `ORDER BY check_in ASC`. -/
def byCheckIn (a b : Booking) : Prop := a.check_in ≤ b.check_in

instance : DecidableRel byCheckIn := fun a b => Int.decLe a.check_in b.check_in

instance : IsTotal Booking byCheckIn := ⟨fun a b => Int.le_total a.check_in b.check_in⟩

instance : IsTrans Booking byCheckIn := ⟨fun _ _ _ => Int.le_trans⟩

/-- `fetch_bookings`: SELECT with the optional conjunctive filters, ordered by
`check_in` ascending. -/
def fetch_bookings (start end_ : Option Int) (status room search : Option String)
    (st : Store) : List Booking :=
  List.insertionSort byCheckIn (st.bookings.filter (fetchPred start end_ status room search))

/-! ### Occupancy projector (`occupancy_matrix`) -/

/-- `pd.date_range(period_start, period_end, freq="D")`: every day from
`ps` to `pe` inclusive, empty when `pe < ps`. -/
def dateList (ps pe : Int) : List Int :=
  (List.range (pe + 1 - ps).toNat).map (fun i : Nat => ps + (i : Int))

/-- One iteration of the marking loop: the occupied nights
`pd.date_range(b.check_in, b.check_out - 1)` of one fetched booking are set
to 1 in its room's column, provided `b.room in mat.columns`; only labels the
grid's index carries (dates within `[ps, pe]`) are cells of the matrix.
Whether pandas tolerates night labels outside the index in this assignment
is library-version-dependent (recent versions raise `KeyError`), so the
occupancy theorem below is stated only for stores whose fetched bookings'
nights stay inside the period, where every version marks exactly these
cells. -/
def markBooking (ps pe : Int) (rooms : List String) (b : Booking)
    (m : Int → String → Nat) : Int → String → Nat :=
  if b.room ∈ rooms then
    fun d r =>
      if r = b.room ∧ b.check_in ≤ d ∧ d ≤ b.check_out - 1 ∧ ps ≤ d ∧ d ≤ pe then 1
      else m d r
  else m

/-- The `for _, b in df.iterrows()` loop over the fetched rows. -/
def markAll (ps pe : Int) (rooms : List String) :
    List Booking → (Int → String → Nat) → Int → String → Nat
  | [], m => m
  | b :: bs, m => markAll ps pe rooms bs (markBooking ps pe rooms b m)

/-- The occupancy DataFrame: its date index, its room columns, and the cell
contents. -/
structure Grid where
  dates : List Int
  rooms : List String
  cell : Int → String → Nat

/-- `occupancy_matrix`: fetch the period's bookings
(`fetch_bookings(period_start, period_end)`, no status/room/search filter),
build a `dates × rooms` matrix of zeros, then mark each booking's nights. -/
def occupancy_matrix (period_start period_end : Int) (rooms : List String)
    (st : Store) : Grid :=
  let df := fetch_bookings (some period_start) (some period_end) none none none st
  ⟨dateList period_start period_end, rooms,
   markAll period_start period_end rooms df (fun _ _ => 0)⟩

/-! ### iCal reconciler (`import_ics_for_room` and the sync-all button) -/

/-- A parsed calendar event as the `ics` library hands it over: `uid` and
`name` (the summary) may be absent, `begin`/`end` are the event's dates when
it has them. -/
structure Event where
  uid : Option String
  name : Option String
  ev_begin : Option Int
  ev_end : Option Int
deriving DecidableEq, Repr

/-- `str()` of a possibly-missing event attribute inside an f-string
(`getattr(ev, 'begin', '')`). -/
def optAttrStr (o : Option Int) : String :=
  match o with
  | some d => toString d
  | none => ""

/-- The fallback dedup key `f"{room}-{ev.begin}-{ev.end}"`. -/
def synthKey (room : String) (ev : Event) : String :=
  room ++ "-" ++ optAttrStr ev.ev_begin ++ "-" ++ optAttrStr ev.ev_end

/-- `uid = getattr(ev, "uid", None) or f"{room}-..."`: Python `or` falls
through on `None` and on the empty string. -/
def deriveUid (room : String) (ev : Event) : String :=
  match ev.uid with
  | some u => if u = "" then synthKey room ev else u
  | none => synthKey room ev

/-- The alternatives of the boilerplate-stripping regex
`Prenotazione|Reservation|Booking|Guest|Ospite|#`, in order. -/
def boilerplateTokens : List (List Char) :=
  ["Prenotazione".data, "Reservation".data, "Booking".data, "Guest".data,
   "Ospite".data, "#".data]

/-- Case-insensitive literal match of one token at the head of `s`:
the remainder after the token, when it matches. -/
def tokenRest : List Char → List Char → Option (List Char)
  | [], s => some s
  | _ :: _, [] => none
  | t :: ts, c :: cs => if lowerEq t c then tokenRest ts cs else none

/-- The first alternative (in the regex's order) matching at the head of `s`,
as the remainder after it. -/
def matchTok (s : List Char) : Option (List Char) :=
  (boilerplateTokens.filterMap (fun t => tokenRest t s)).head?

theorem tokenRest_length : ∀ (t s r : List Char), tokenRest t s = some r →
    r.length + t.length = s.length := by
  intro t
  induction t with
  | nil => intro s r h; simp [tokenRest] at h; simp [h]
  | cons c cs ih =>
    intro s r h
    match s with
    | [] => simp [tokenRest] at h
    | d :: ds =>
      simp only [tokenRest] at h
      split at h
      · have := ih ds r h
        simp only [List.length_cons]
        omega
      · exact absurd h (by simp)

theorem matchTok_length {s r : List Char} (h : matchTok s = some r) :
    r.length < s.length := by
  unfold matchTok at h
  rcases List.head?_eq_some_iff.mp h with ⟨l, hl⟩
  have hmem : r ∈ boilerplateTokens.filterMap (fun t => tokenRest t s) := by
    rw [hl]; exact List.mem_cons_self _ _
  rcases List.mem_filterMap.mp hmem with ⟨t, ht, hrest⟩
  have hlen := tokenRest_length t s r hrest
  have : t.length ≠ 0 := by
    fin_cases ht <;> simp
  omega

/-- `re.sub(r"Prenotazione|Reservation|Booking|Guest|Ospite|#", "", s,
flags=re.I)`: scan left to right, delete a leftmost-alternative match at the
current position, otherwise keep the character and move on. -/
def stripBoilerplate (s : List Char) : List Char :=
  match h : matchTok s with
  | some rest => stripBoilerplate rest
  | none =>
    match s with
    | [] => []
    | c :: cs => c :: stripBoilerplate cs
termination_by s.length
decreasing_by
  · exact matchTok_length h
  · simp only [List.length_cons]; omega

/-- `parse_guest_from_summary`: strip the boilerplate tokens and trim; an
empty summary or an empty remainder yields the placeholder name. -/
def parse_guest_from_summary (summary : String) : String :=
  if summary = "" then "Ospite Booking"
  else
    let s := (String.mk (stripBoilerplate summary.data)).trim
    if s = "" then "Ospite Booking" else s

/-- Does the table hold a row with `external_source='booking_com_ical' AND
external_uid=uid` (the dedup SELECT)? -/
def hasProvenance (uid : String) (st : Store) : Bool :=
  st.bookings.any (fun b =>
    b.external_source == some "booking_com_ical" && b.external_uid == some uid)

/-- The INSERT the reconciler issues for a new event: fixed
source/status/guests/price/notes, the provenance pair set, email and phone
NULL. -/
def importData (guest room : String) (start end_ : Int) (uid : String) : BookingData :=
  ⟨guest, none, none, "Booking", room, "Confermata", start, end_, 2, 0,
   some "Import iCal", some "booking_com_ical", some uid⟩

/-- One iteration of the event loop of `import_ics_for_room`: compute the
uid, skip events missing a start or an end, skip events whose provenance pair
is already present, otherwise insert and count. -/
def importStep (room : String) (now : Int) (acc : Store × Nat) (ev : Event) : Store × Nat :=
  let uid := deriveUid room ev
  match ev.ev_begin, ev.ev_end with
  | some start, some end_ =>
    if hasProvenance uid acc.1 then acc
    else
      let guest := parse_guest_from_summary (ev.name.getD "")
      ((insert_booking (importData guest room start end_ uid) now acc.1).1, acc.2 + 1)
  | _, _ => acc

/-- The event loop of `import_ics_for_room` on an already-fetched,
already-parsed feed, returning the new table state and `created`. -/
def import_events (room : String) (events : List Event) (now : Int) (st : Store) :
    Store × Nat :=
  events.foldl (importStep room now) (st, 0)

/-- What the network fetch plus the `Calendar(resp.text)` parse of one feed
amount to for the importer: `requests.get` raised (or `raise_for_status` did),
the parse raised, or a list of events.  Both libraries live outside this
repository, so their outcome is the reconciler's input. -/
inductive SyncInput where
  | fetchFailure
  | parseFailure
  | events (evs : List Event)
deriving DecidableEq, Repr

/-- Which `st.error` message `import_ics_for_room` emitted, if any. -/
inductive SyncError where
  | fetchError
  | parseError
deriving DecidableEq, Repr

/-- `import_ics_for_room`: on a fetch or parse failure report the error and
return 0 having touched nothing; otherwise run the event loop. -/
def import_ics_for_room (room : String) (input : SyncInput) (now : Int) (st : Store) :
    Store × Nat × Option SyncError :=
  match input with
  | .fetchFailure => (st, 0, some .fetchError)
  | .parseFailure => (st, 0, some .parseError)
  | .events evs =>
    let r := import_events room evs now st
    (r.1, r.2, none)

/-- The sync-all button: `for r, u in get_ical_map().items(): count_total +=
import_ics_for_room(r, u)`, each room's feed outcome given by the map. -/
def sync_all (mappings : List (String × SyncInput)) (now : Int) (st : Store) :
    Store × Nat :=
  mappings.foldl
    (fun acc m =>
      let r := import_ics_for_room m.1 m.2 now acc.1
      (r.1, acc.2 + r.2.1))
    (st, 0)

/-! ### The two form handlers (sidebar "Nuova prenotazione" and the edit tab) -/

/-- What the widgets of either booking form hand the submit handler.  Text
inputs produce strings (possibly empty), never `None`. -/
structure FormInput where
  guest_name : String
  email : String
  phone : String
  source : String
  room : String
  status : String
  check_in : Int
  check_out : Int
  guests : Int
  price : Int
  notes : String
deriving DecidableEq, Repr

/-- The dict both handlers build: all the manual fields, and no
`external_source`/`external_uid` key at all. -/
def formData (f : FormInput) : BookingData :=
  ⟨f.guest_name, some f.email, some f.phone, f.source, f.room, f.status,
   f.check_in, f.check_out, f.guests, f.price, some f.notes, none, none⟩

/-- The create handler: reject an empty guest name or `check_out <=
check_in`; otherwise consult `has_overlap` (whose verdict only drives the
warning flag) and insert unconditionally.  Returns the store, the new id when
an insert happened, and whether the overlap warning was shown. -/
def new_booking_submit (f : FormInput) (now : Int) (st : Store) :
    Store × Option Nat × Bool :=
  if f.guest_name = "" then (st, none, false)
  else if f.check_out ≤ f.check_in then (st, none, false)
  else
    let ov := has_overlap f.check_in f.check_out f.room none st
    let r := insert_booking (formData f) now st
    (r.1, some r.2, ov.1 && decide (f.status ≠ "Annullata"))

/-- The edit handler: same validation, `has_overlap` consulted with
`exclude_id = sel_id` for the warning only, then `update_booking`
unconditionally. -/
def edit_submit (sel_id : Nat) (f : FormInput) (now : Int) (st : Store) :
    Store × Bool :=
  if f.guest_name = "" then (st, false)
  else if f.check_out ≤ f.check_in then (st, false)
  else
    let ov := has_overlap f.check_in f.check_out f.room (some sel_id) st
    (update_booking sel_id (formData f) now st, ov.1 && decide (f.status ≠ "Annullata"))

/-! ### Spec-side definitions

These follow the specification's words, for comparison with the embedded
code: case-insensitive substring matching for the free-text filter. -/

/-- Spec wording: the search string "occurs case-insensitively as a
substring" of a field. -/
def specContainsCI (needle hay : String) : Prop :=
  needle.data.map Char.toLower <:+: hay.data.map Char.toLower

instance (needle hay : String) : Decidable (specContainsCI needle hay) :=
  List.decidableInfix _ _

/-- Spec wording applied to a nullable column: an absent field contains
nothing. -/
def specContainsOpt (needle : String) (field : Option String) : Prop :=
  match field with
  | none => False
  | some f => specContainsCI needle f

instance (needle : String) (field : Option String) :
    Decidable (specContainsOpt needle field) := by
  unfold specContainsOpt
  match field with
  | none => exact inferInstance
  | some f => exact inferInstance

/-- Spec wording of the free-text filter: the search string occurs
case-insensitively as a substring of guest name, email, phone, or notes. -/
def specTextMatch (search : String) (b : Booking) : Prop :=
  specContainsCI search b.guest_name ∨ specContainsOpt search b.email ∨
    specContainsOpt search b.phone ∨ specContainsOpt search b.notes

instance (search : String) (b : Booking) : Decidable (specTextMatch search b) := by
  unfold specTextMatch; exact inferInstance

/-- Search strings free of the LIKE metacharacters. -/
def noMeta (search : String) : Prop := ∀ c ∈ search.data, c ≠ '%' ∧ c ≠ '_'

instance (search : String) : Decidable (noMeta search) := by
  unfold noMeta; exact inferInstance

/-! ### Shared lemmas -/

theorem mem_fetch_iff {start end_ : Option Int} {status room search : Option String}
    {st : Store} {b : Booking} :
    b ∈ fetch_bookings start end_ status room search st ↔
      b ∈ st.bookings ∧ fetchPred start end_ status room search b = true := by
  unfold fetch_bookings
  rw [List.mem_insertionSort, List.mem_filter]

theorem sorted_fetch (start end_ : Option Int) (status room search : Option String)
    (st : Store) :
    (fetch_bookings start end_ status room search st).Sorted byCheckIn :=
  List.sorted_insertionSort byCheckIn _

theorem overlapPred_iff {check_in check_out : Int} {room : String}
    {exclude_id : Option Nat} {b : Booking} :
    overlapPred check_in check_out room exclude_id b = true ↔
      b.room = room ∧ b.status ≠ "Annullata" ∧
        (∀ e, exclude_id = some e → b.id ≠ e) ∧
        b.check_in < check_out ∧ b.check_out > check_in := by
  cases exclude_id <;>
    simp [overlapPred, and_assoc, and_comm, and_left_comm]

/-- C1: for every store state and candidate (room, check_in, check_out),
`has_overlap` lists a booking B among the conflicts exactly when B is a
stored booking of that room whose status is not 'Annullata', whose id
differs from `exclude_id` when that is given, and whose dates satisfy
`B.check_in < check_out` and `B.check_out > check_in` (half-open interval
intersection); and it returns `true` exactly when such a booking exists. -/
theorem hasOverlap_characterization (check_in check_out : Int) (room : String)
    (exclude_id : Option Nat) (st : Store) (B : Booking) :
    (B ∈ (has_overlap check_in check_out room exclude_id st).2 ↔
      B ∈ st.bookings ∧ B.room = room ∧ B.status ≠ "Annullata" ∧
        (∀ e, exclude_id = some e → B.id ≠ e) ∧
        B.check_in < check_out ∧ B.check_out > check_in) ∧
    ((has_overlap check_in check_out room exclude_id st).1 = true ↔
      ∃ C ∈ st.bookings, C.room = room ∧ C.status ≠ "Annullata" ∧
        (∀ e, exclude_id = some e → C.id ≠ e) ∧
        C.check_in < check_out ∧ C.check_out > check_in) := by
  constructor
  · rw [show (has_overlap check_in check_out room exclude_id st).2 =
        st.bookings.filter (overlapPred check_in check_out room exclude_id) from rfl,
      List.mem_filter, overlapPred_iff]
  · rw [show (has_overlap check_in check_out room exclude_id st).1 =
        decide ((st.bookings.filter (overlapPred check_in check_out room exclude_id)).length > 0)
        from rfl]
    simp only [decide_eq_true_eq, gt_iff_lt, List.length_pos_iff_exists_mem]
    constructor
    · rintro ⟨C, hC⟩
      rcases List.mem_filter.mp hC with ⟨hmem, hpred⟩
      exact ⟨C, hmem, overlapPred_iff.mp hpred⟩
    · rintro ⟨C, hmem, hprops⟩
      exact ⟨C, List.mem_filter.mpr ⟨hmem, overlapPred_iff.mpr hprops⟩⟩

/-- C8: `update_booking` with an id matching no stored row changes nothing
and raises nothing; it never creates or removes a row; and for a stored row
matching the id it replaces every mutable column with the caller's value,
refreshes `updated_at`, and keeps `id` and `created_at`. -/
theorem updateBooking_noop_or_replace (booking_id : Nat) (data : BookingData)
    (now : Int) (st : Store) :
    ((∀ b ∈ st.bookings, b.id ≠ booking_id) →
      update_booking booking_id data now st = st) ∧
    (update_booking booking_id data now st).bookings.length = st.bookings.length ∧
    (∀ b ∈ st.bookings, b.id ≠ booking_id →
      b ∈ (update_booking booking_id data now st).bookings) ∧
    (∀ b ∈ st.bookings, b.id = booking_id →
      ∃ b' ∈ (update_booking booking_id data now st).bookings,
        b'.id = booking_id ∧ b'.updated_at = now ∧ b'.created_at = b.created_at ∧
        b'.guest_name = data.guest_name ∧ b'.email = data.email ∧
        b'.phone = data.phone ∧ b'.source = data.source ∧ b'.room = data.room ∧
        b'.status = data.status ∧ b'.check_in = data.check_in ∧
        b'.check_out = data.check_out ∧ b'.guests = data.guests ∧
        b'.price = data.price ∧ b'.notes = data.notes ∧
        b'.external_source = data.external_source ∧
        b'.external_uid = data.external_uid) := by
  refine ⟨?_, ?_, ?_, ?_⟩
  · intro h
    unfold update_booking
    have : st.bookings.map
        (fun b => if b.id = booking_id then applySet data now b else b) = st.bookings :=
      calc st.bookings.map (fun b => if b.id = booking_id then applySet data now b else b)
          = st.bookings.map (fun b => b) :=
            List.map_congr_left (fun b hb => by simp [h b hb])
        _ = st.bookings := List.map_id' _
    simp [this]
  · simp [update_booking]
  · intro b hb hne
    unfold update_booking
    simpa [hne] using List.mem_map_of_mem
      (fun b => if b.id = booking_id then applySet data now b else b) hb
  · intro b hb heq
    refine ⟨applySet data now b, ?_, ?_⟩
    · unfold update_booking
      have := List.mem_map_of_mem
        (fun b => if b.id = booking_id then applySet data now b else b) hb
      simpa [heq] using this
    · simp [applySet, heq]

/-- C8 witness: updating an id absent from a concrete one-booking store
leaves the store unchanged. -/
theorem updateBooking_noop_witness :
    update_booking 7
      ⟨"g", none, none, "Diretta", "Camera 1", "Confermata", 0, 1, 1, 0, none, none, none⟩ 5
      ⟨[⟨1, "a", none, none, "Diretta", "Camera 1", "Confermata", 0, 1, 1, 0,
          none, none, none, 0, 0⟩], 2⟩ =
      ⟨[⟨1, "a", none, none, "Diretta", "Camera 1", "Confermata", 0, 1, 1, 0,
          none, none, none, 0, 0⟩], 2⟩ :=
  (updateBooking_noop_or_replace 7 _ 5 _).1 (by decide)

/-! ### Concrete fixtures for witnesses and counterexamples -/

/-- A stored booking: room "Camera 1", nights 0 and 1, confirmed. -/
def fixBooking : Booking :=
  ⟨1, "Anna Bianchi", some "anna@example.com", none, "Diretta", "Camera 1",
   "Confermata", 0, 2, 2, 100, none, none, none, 0, 0⟩

/-- A one-booking store. -/
def fixStore : Store := ⟨[fixBooking], 2⟩

/-- A valid manual form whose dates overlap `fixBooking`. -/
def fixForm : FormInput :=
  ⟨"Mario Rossi", "mario@example.com", "", "Diretta", "Camera 1", "Confermata",
   1, 3, 2, 50, ""⟩

/-- C3: the overlap detector is advisory only.  For every store and every
form input passing the UI validation (non-empty guest name, `check_out >
check_in`), the create handler inserts the booking — appending exactly one
row carrying the form's fields — and the edit handler performs
`update_booking`, in both cases with no condition on what `has_overlap`
reported. -/
theorem overlap_advisory (f : FormInput) (now : Int) (st : Store) (sel_id : Nat) :
    (f.guest_name ≠ "" → f.check_in < f.check_out →
      ∃ b, (new_booking_submit f now st).1.bookings = st.bookings ++ [b] ∧
        (new_booking_submit f now st).2.1 = some b.id ∧
        b.guest_name = f.guest_name ∧ b.room = f.room ∧ b.status = f.status ∧
        b.check_in = f.check_in ∧ b.check_out = f.check_out) ∧
    (f.guest_name ≠ "" → f.check_in < f.check_out →
      (edit_submit sel_id f now st).1 = update_booking sel_id (formData f) now st) := by
  constructor
  · intro hname hdates
    refine ⟨⟨st.next_id, f.guest_name, some f.email, some f.phone, f.source, f.room,
        f.status, f.check_in, f.check_out, f.guests, f.price, some f.notes, none, none,
        now, now⟩, ?_, ?_, rfl, rfl, rfl, rfl, rfl⟩
    · simp [new_booking_submit, hname, not_le.mpr hdates, insert_booking, formData]
    · simp [new_booking_submit, hname, not_le.mpr hdates, insert_booking, formData]
  · intro hname hdates
    simp [edit_submit, hname, not_le.mpr hdates]

/-- C3 witness: on a concrete store where `has_overlap` does report a
conflict for the form's room and dates, the insert still happens. -/
theorem overlap_advisory_witness :
    (has_overlap fixForm.check_in fixForm.check_out fixForm.room none fixStore).1 = true ∧
    ∃ b, (new_booking_submit fixForm 9 fixStore).1.bookings = fixStore.bookings ++ [b] ∧
      (new_booking_submit fixForm 9 fixStore).2.1 = some b.id ∧
      b.guest_name = fixForm.guest_name ∧ b.room = fixForm.room ∧
      b.status = fixForm.status ∧ b.check_in = fixForm.check_in ∧
      b.check_out = fixForm.check_out :=
  ⟨by decide, (overlap_advisory fixForm 9 fixStore 1).1 (by decide) (by decide)⟩

/-! ### Occupancy lemmas -/

theorem mem_dateList {ps pe d : Int} : d ∈ dateList ps pe ↔ ps ≤ d ∧ d ≤ pe := by
  simp only [dateList, List.mem_map, List.mem_range]
  constructor
  · rintro ⟨i, hi, rfl⟩
    omega
  · rintro ⟨h1, h2⟩
    exact ⟨(d - ps).toNat, by omega, by omega⟩

theorem nodup_dateList (ps pe : Int) : (dateList ps pe).Nodup :=
  (List.nodup_range _).map (fun a b h => by omega)

theorem markAll_eq (ps pe : Int) (rooms : List String) (l : List Booking)
    (m : Int → String → Nat) (d : Int) (r : String) :
    markAll ps pe rooms l m d r =
      if ∃ b ∈ l, b.room ∈ rooms ∧ r = b.room ∧ b.check_in ≤ d ∧
          d ≤ b.check_out - 1 ∧ ps ≤ d ∧ d ≤ pe
      then 1 else m d r := by
  induction l generalizing m with
  | nil => simp [markAll]
  | cons b bs ih =>
    rw [markAll, ih]
    by_cases hbs : ∃ b' ∈ bs, b'.room ∈ rooms ∧ r = b'.room ∧ b'.check_in ≤ d ∧
        d ≤ b'.check_out - 1 ∧ ps ≤ d ∧ d ≤ pe
    · rw [if_pos hbs, if_pos]
      exact match hbs with
        | ⟨b', h1, h2⟩ => ⟨b', List.mem_cons_of_mem _ h1, h2⟩
    · rw [if_neg hbs]
      unfold markBooking
      by_cases hroom : b.room ∈ rooms
      · rw [if_pos hroom]
        by_cases hmark : r = b.room ∧ b.check_in ≤ d ∧ d ≤ b.check_out - 1 ∧
            ps ≤ d ∧ d ≤ pe
        · rw [if_pos hmark, if_pos ⟨b, List.mem_cons_self b bs, hroom, hmark⟩]
        · rw [if_neg hmark, if_neg]
          rintro ⟨b', hb', hprops⟩
          rcases List.mem_cons.mp hb' with rfl | hmem
          · exact hmark hprops.2
          · exact hbs ⟨b', hmem, hprops⟩
      · rw [if_neg hroom, if_neg]
        rintro ⟨b', hb', hprops⟩
        rcases List.mem_cons.mp hb' with rfl | hmem
        · exact hroom hprops.1
        · exact hbs ⟨b', hmem, hprops⟩

/-- A store whose one booking checks in exactly on the period's last day. -/
def boundaryStore : Store :=
  ⟨[⟨1, "Carla Verdi", none, none, "Diretta", "Camera 1", "Confermata",
      1, 2, 2, 0, none, none, none, 0, 0⟩], 2⟩

/-- C4 counterexample: over the period `[0, 1]`, the stored booking of room
"Camera 1" with `check_in = 1`, `check_out = 2` covers night 1 — a date of
the grid, in a requested room — yet its cell holds 0: `occupancy_matrix`
fetches the period's bookings with the strict filter `check_in < period_end`,
so a booking checking in on the period's last day never marks the grid. -/
theorem occupancy_boundary_cex :
    ((1 : Int) ∈ (occupancy_matrix 0 1 ["Camera 1"] boundaryStore).dates) ∧
    ("Camera 1" ∈ (occupancy_matrix 0 1 ["Camera 1"] boundaryStore).rooms) ∧
    (∃ b ∈ boundaryStore.bookings, b.room = "Camera 1" ∧ b.check_in ≤ 1 ∧
      (1 : Int) ≤ b.check_out - 1) ∧
    (occupancy_matrix 0 1 ["Camera 1"] boundaryStore).cell 1 "Camera 1" = 0 := by
  decide

/-- C4 as amended: over a store whose fetched bookings' occupied nights all
lie within the period (where pandas label assignment is unambiguous), the
grid has exactly one row per date in `[periodStart, periodEnd]` and one
column per requested room; every cell holds 0 or 1; and a cell `(d, room)`
is 1 exactly when some stored booking of that room — of any status, but
fetched by the period window, hence with `check_in < periodEnd` — covers
night `d` (`check_in ≤ d < check_out`).  Bookings of rooms outside the
requested list mark no cell. -/
theorem occupancy_characterization (ps pe : Int) (rooms : List String) (st : Store)
    (d : Int) (r : String) (hd : ps ≤ d ∧ d ≤ pe) (hr : r ∈ rooms)
    (hwin : ∀ b ∈ st.bookings,
      b.check_out > ps → b.check_in < pe → b.check_in ≤ b.check_out - 1 →
        ps ≤ b.check_in ∧ b.check_out - 1 ≤ pe) :
    ((occupancy_matrix ps pe rooms st).cell d r = 1 ↔
      ∃ b ∈ st.bookings, b.room = r ∧ b.check_in ≤ d ∧ d < b.check_out ∧
        b.check_in < pe) ∧
    ((occupancy_matrix ps pe rooms st).cell d r = 0 ∨
      (occupancy_matrix ps pe rooms st).cell d r = 1) ∧
    (∀ d', d' ∈ (occupancy_matrix ps pe rooms st).dates ↔ ps ≤ d' ∧ d' ≤ pe) ∧
    (occupancy_matrix ps pe rooms st).dates.Nodup ∧
    (occupancy_matrix ps pe rooms st).rooms = rooms := by
  have hcell : ∀ d' r', (occupancy_matrix ps pe rooms st).cell d' r' =
      markAll ps pe rooms
        (fetch_bookings (some ps) (some pe) none none none st) (fun _ _ => 0) d' r' :=
    fun _ _ => rfl
  refine ⟨?_, ?_, ?_, nodup_dateList ps pe, rfl⟩
  · rw [hcell, markAll_eq]
    constructor
    · intro h1
      by_cases hex : ∃ b ∈ fetch_bookings (some ps) (some pe) none none none st,
          b.room ∈ rooms ∧ r = b.room ∧ b.check_in ≤ d ∧ d ≤ b.check_out - 1 ∧
          ps ≤ d ∧ d ≤ pe
      · rcases hex with ⟨b, hbmem, _, hreq, hci, hco, _, _⟩
        rcases mem_fetch_iff.mp hbmem with ⟨hbst, hpred⟩
        have hwin : b.check_out > ps ∧ b.check_in < pe := by
          simpa [fetchPred] using hpred
        exact ⟨b, hbst, hreq.symm, hci, by omega, hwin.2⟩
      · rw [if_neg hex] at h1
        exact absurd h1 (by decide)
    · rintro ⟨b, hbst, hroom, hci, hco, hwin⟩
      rw [if_pos]
      refine ⟨b, mem_fetch_iff.mpr ⟨hbst, ?_⟩, hroom ▸ hr, hroom.symm, hci, by omega,
        hd.1, hd.2⟩
      simp only [fetchPred]
      simp only [Bool.and_true, Bool.and_eq_true, decide_eq_true_eq]
      omega
  · rw [hcell, markAll_eq]
    split
    · right; rfl
    · left; rfl
  · intro d'
    exact mem_dateList

/-- C4 witness: on a concrete store whose booking covers night 0 of the
period `[0, 1]`, the characterization applies and gives an occupied cell. -/
theorem occupancy_characterization_witness :
    (occupancy_matrix 0 1 ["Camera 1"] fixStore).cell 0 "Camera 1" = 1 :=
  ((occupancy_characterization 0 1 ["Camera 1"] fixStore 0 "Camera 1" (by decide)
      (by decide) (by decide)).1).mpr
    ⟨fixBooking, by decide, by decide, by decide, by decide, by decide⟩

/-! ### Reconciler lemmas -/

theorem hasProvenance_insert {u : String} {d : BookingData} {now : Int} {st : Store}
    (h : hasProvenance u st = true) :
    hasProvenance u (insert_booking d now st).1 = true := by
  simp only [hasProvenance, insert_booking, List.any_append, Bool.or_eq_true] at *
  exact Or.inl h

theorem hasProvenance_step (room : String) (now : Int) (acc : Store × Nat) (ev : Event)
    {u : String} (h : hasProvenance u acc.1 = true) :
    hasProvenance u (importStep room now acc ev).1 = true := by
  rcases hb : ev.ev_begin with _ | s
  · simpa [importStep, hb] using h
  · rcases he : ev.ev_end with _ | e
    · simpa [importStep, hb, he] using h
    · simp only [importStep, hb, he]
      split
      · exact h
      · exact hasProvenance_insert h

theorem hasProvenance_fold (room : String) (now : Int) (evs : List Event)
    (acc : Store × Nat) {u : String} (h : hasProvenance u acc.1 = true) :
    hasProvenance u (evs.foldl (importStep room now) acc).1 = true := by
  induction evs generalizing acc with
  | nil => exact h
  | cons ev evs ih => exact ih _ (hasProvenance_step room now acc ev h)

theorem hasProvenance_imported (g room : String) (s e : Int) (u : String) (now : Int)
    (st : Store) :
    hasProvenance u (insert_booking (importData g room s e u) now st).1 = true := by
  simp [hasProvenance, insert_booking, importData, List.any_append]

theorem hasProvenance_after_import (room : String) (now : Int) (evs : List Event)
    (acc : Store × Nat) :
    ∀ ev ∈ evs, ev.ev_begin ≠ none → ev.ev_end ≠ none →
      hasProvenance (deriveUid room ev) (evs.foldl (importStep room now) acc).1 = true := by
  induction evs generalizing acc with
  | nil => simp
  | cons e0 es ih =>
    intro ev hmem hb he
    rcases List.mem_cons.mp hmem with rfl | hmem2
    · rw [List.foldl_cons]
      apply hasProvenance_fold
      rcases hs : ev.ev_begin with _ | s
      · exact absurd hs hb
      rcases hend : ev.ev_end with _ | en
      · exact absurd hend he
      simp only [importStep, hs, hend]
      split
      · assumption
      · exact hasProvenance_imported _ room s en _ now acc.1
    · exact ih _ ev hmem2 hb he

theorem import_noop (room : String) (now : Int) (evs : List Event) (st : Store) (n : Nat) :
    (∀ ev ∈ evs, ev.ev_begin ≠ none → ev.ev_end ≠ none →
      hasProvenance (deriveUid room ev) st = true) →
    evs.foldl (importStep room now) (st, n) = (st, n) := by
  induction evs with
  | nil => intro _; rfl
  | cons e0 es ih =>
    intro h
    have hstep : importStep room now (st, n) e0 = (st, n) := by
      rcases hb : e0.ev_begin with _ | s
      · simp [importStep, hb]
      rcases he : e0.ev_end with _ | en
      · simp [importStep, hb, he]
      have hp := h e0 (List.mem_cons_self e0 es) (by simp [hb]) (by simp [he])
      simp [importStep, hb, he, hp]
    rw [List.foldl_cons, hstep]
    exact ih (fun ev hm hb he => h ev (List.mem_cons_of_mem e0 hm) hb he)

theorem import_count (room : String) (now : Int) (evs : List Event) (acc : Store × Nat) :
    (evs.foldl (importStep room now) acc).1.bookings.length + acc.2 =
      acc.1.bookings.length + (evs.foldl (importStep room now) acc).2 := by
  induction evs generalizing acc with
  | nil => rfl
  | cons e0 es ih =>
    rw [List.foldl_cons]
    have hstep : (importStep room now acc e0).1.bookings.length + acc.2 =
        acc.1.bookings.length + (importStep room now acc e0).2 := by
      rcases hb : e0.ev_begin with _ | s
      · simp [importStep, hb]
      rcases he : e0.ev_end with _ | en
      · simp [importStep, hb, he]
      simp only [importStep, hb, he]
      split
      · rfl
      · simp [insert_booking]
        omega
    have := ih (importStep room now acc e0)
    omega

/-- C2: `syncFeed` is idempotent against an unchanged feed.  For every store,
room and parsed feed content, running the import a second time over the store
the first run produced creates no booking and returns 0: every event either
lacks a date (skipped) or has its `(external_source, external_uid)` pair
already present after the first run, so the dedup lookup skips it. -/
theorem syncFeed_idempotent (room : String) (evs : List Event) (now1 now2 : Int)
    (st : Store) :
    import_ics_for_room room (.events evs) now2 (import_events room evs now1 st).1 =
      ((import_events room evs now1 st).1, 0, none) := by
  have hnoop : import_events room evs now2 (import_events room evs now1 st).1 =
      ((import_events room evs now1 st).1, 0) := by
    unfold import_events
    apply import_noop
    intro ev hm hb he
    exact hasProvenance_after_import room now1 evs (st, 0) ev hm hb he
  simp [import_ics_for_room, hnoop]

/-- C6: per event of a fetched, parsed feed: an event missing its start or
end date is skipped silently; an event whose `(external_source,
external_uid)` pair is already stored is skipped; otherwise exactly one
booking is appended, for the given room, with status 'Confermata', source
'Booking', guests 2, price 0, the feed-import note, and the provenance pair
set; the uid is the event's own identifier when it is present (and
non-empty, Python truthiness), else the synthesized room-start-end key; and
the returned count equals the number of bookings created. -/
theorem import_event_semantics (room : String) (now : Int) (st : Store) (n : Nat)
    (ev : Event) (evs : List Event) :
    (ev.ev_begin = none ∨ ev.ev_end = none →
      importStep room now (st, n) ev = (st, n)) ∧
    (∀ s e, ev.ev_begin = some s → ev.ev_end = some e →
      (hasProvenance (deriveUid room ev) st = true →
        importStep room now (st, n) ev = (st, n)) ∧
      (hasProvenance (deriveUid room ev) st = false →
        ∃ nb, importStep room now (st, n) ev =
            (⟨st.bookings ++ [nb], st.next_id + 1⟩, n + 1) ∧
          nb.room = room ∧ nb.status = "Confermata" ∧ nb.source = "Booking" ∧
          nb.guests = 2 ∧ nb.price = 0 ∧ nb.notes = some "Import iCal" ∧
          nb.check_in = s ∧ nb.check_out = e ∧
          nb.external_source = some "booking_com_ical" ∧
          nb.external_uid = some (deriveUid room ev))) ∧
    (∀ u, ev.uid = some u → u ≠ "" → deriveUid room ev = u) ∧
    (ev.uid = none → deriveUid room ev = synthKey room ev) ∧
    ((import_events room evs now st).2 + st.bookings.length =
      (import_events room evs now st).1.bookings.length) := by
  refine ⟨?_, ?_, ?_, ?_, ?_⟩
  · rintro (hb | he)
    · simp [importStep, hb]
    · rcases hb : ev.ev_begin with _ | s
      · simp [importStep, hb]
      · simp [importStep, hb, he]
  · intro s e hb he
    constructor
    · intro hfound
      simp [importStep, hb, he, hfound]
    · intro hnew
      refine ⟨⟨st.next_id, parse_guest_from_summary (ev.name.getD ""), none, none,
          "Booking", room, "Confermata", s, e, 2, 0, some "Import iCal",
          some "booking_com_ical", some (deriveUid room ev), now, now⟩, ?_,
        rfl, rfl, rfl, rfl, rfl, rfl, rfl, rfl, rfl, rfl⟩
      simp [importStep, hb, he, hnew, insert_booking, importData]
  · intro u hu hne
    simp [deriveUid, hu, hne]
  · intro hu
    simp [deriveUid, hu]
  · have h := import_count room now evs (st, 0)
    dsimp only at h
    unfold import_events
    omega

/-- C7: a fetch failure or a parse failure of one room's feed reports the
matching error, creates no booking and returns 0; and in a sync-all run the
failing room's entry contributes nothing — the run over the remaining
mappings is exactly the run with the failing entry removed. -/
theorem sync_failure_isolated (room : String) (now : Int) (st : Store)
    (pre post : List (String × SyncInput)) (r : String) :
    (import_ics_for_room room .fetchFailure now st = (st, 0, some .fetchError)) ∧
    (import_ics_for_room room .parseFailure now st = (st, 0, some .parseError)) ∧
    (∀ input, input = SyncInput.fetchFailure ∨ input = SyncInput.parseFailure →
      sync_all (pre ++ (r, input) :: post) now st = sync_all (pre ++ post) now st) := by
  refine ⟨rfl, rfl, ?_⟩
  rintro input (rfl | rfl) <;>
  · unfold sync_all
    rw [List.foldl_append, List.foldl_append, List.foldl_cons]
    rfl

/-- C9: `update_booking` never changes `id` or `created_at`; the edit form's
dict carries no `external_source`/`external_uid` key, so the UPDATE it issues
writes NULL into both columns of the edited row; and once a feed-imported
booking's provenance pair is so cleared (and no other row carries the pair),
re-running the sync re-imports the same event as a fresh duplicate booking. -/
theorem edit_clears_provenance (sel_id : Nat) (f : FormInput) (now now2 : Int)
    (st : Store) (room u : String) (ev : Event) (s e : Int) :
    ((update_booking sel_id (formData f) now st).bookings.map
        (fun b => (b.id, b.created_at)) =
      st.bookings.map (fun b => (b.id, b.created_at))) ∧
    (f.guest_name ≠ "" → f.check_in < f.check_out →
      (∀ b ∈ (edit_submit sel_id f now st).1.bookings, b.id = sel_id →
        b.external_source = none ∧ b.external_uid = none) ∧
      (ev.ev_begin = some s → ev.ev_end = some e → deriveUid room ev = u →
        (∀ b ∈ st.bookings, b.external_source = some "booking_com_ical" →
          b.external_uid = some u → b.id = sel_id) →
        (import_events room [ev] now2 (edit_submit sel_id f now st).1).2 = 1)) := by
  constructor
  · have hupd : (update_booking sel_id (formData f) now st).bookings =
        st.bookings.map (fun b => if b.id = sel_id then applySet (formData f) now b else b) :=
      rfl
    rw [hupd, List.map_map]
    apply List.map_congr_left
    intro b _
    by_cases h : b.id = sel_id <;> simp [applySet, h, Function.comp]
  · intro hname hdates
    have hedit : (edit_submit sel_id f now st).1 = update_booking sel_id (formData f) now st := by
      simp [edit_submit, hname, not_le.mpr hdates]
    have hcleared : ∀ b ∈ (edit_submit sel_id f now st).1.bookings, b.id = sel_id →
        b.external_source = none ∧ b.external_uid = none := by
      intro b hb hid
      rw [hedit] at hb
      rcases List.mem_map.mp hb with ⟨b0, hb0, rfl⟩
      by_cases h0 : b0.id = sel_id
      · simp [applySet, formData, h0]
      · simp only [if_neg h0] at hid ⊢
        exact absurd hid h0
    refine ⟨hcleared, ?_⟩
    intro hb he hder hunique
    have hnoprov : hasProvenance (deriveUid room ev) (edit_submit sel_id f now st).1 = false := by
      rw [hder, Bool.eq_false_iff]
      intro htrue
      rcases List.any_eq_true.mp htrue with ⟨b, hbmem, hmatch⟩
      rw [Bool.and_eq_true, beq_iff_eq, beq_iff_eq] at hmatch
      rw [hedit] at hbmem
      rcases List.mem_map.mp hbmem with ⟨b0, hb0, rfl⟩
      by_cases h0 : b0.id = sel_id
      · rw [if_pos h0] at hmatch
        exact absurd hmatch.1 (by simp [applySet, formData])
      · rw [if_neg h0] at hmatch
        exact h0 (hunique b0 hb0 hmatch.1 hmatch.2)
    unfold import_events
    rw [List.foldl_cons, List.foldl_nil]
    simp [importStep, hb, he, hnoprov, insert_booking]

/-- A feed-imported booking carrying its provenance pair. -/
def importedBooking : Booking :=
  ⟨1, "Ospite Booking", none, none, "Booking", "Camera 1", "Confermata",
   10, 12, 2, 0, some "Import iCal", some "booking_com_ical", some "uid-1", 0, 0⟩

/-- A store holding only the imported booking. -/
def importedStore : Store := ⟨[importedBooking], 2⟩

/-- A valid manual edit of the imported booking (same dates, new guest name). -/
def editForm : FormInput :=
  ⟨"Mario Rossi", "", "", "Booking", "Camera 1", "Confermata", 10, 12, 2, 0, ""⟩

/-- The feed event the imported booking came from. -/
def feedEvent : Event := ⟨some "uid-1", some "Reservation Mario", some 10, some 12⟩

/-- C9 witness: on the concrete imported booking, saving the edit clears the
provenance pair and the next sync of the unchanged event creates a duplicate. -/
theorem edit_clears_provenance_witness :
    (∀ b ∈ (edit_submit 1 editForm 5 importedStore).1.bookings, b.id = 1 →
      b.external_source = none ∧ b.external_uid = none) ∧
    (import_events "Camera 1" [feedEvent] 6 (edit_submit 1 editForm 5 importedStore).1).2 = 1 :=
  ⟨((edit_clears_provenance 1 editForm 5 6 importedStore "Camera 1" "uid-1"
        feedEvent 10 12).2 (by decide) (by decide)).1,
   ((edit_clears_provenance 1 editForm 5 6 importedStore "Camera 1" "uid-1"
        feedEvent 10 12).2 (by decide) (by decide)).2 rfl rfl (by decide) (by decide)⟩

/-! ### LIKE lemmas -/

theorem likeMatch_nil_iff (s : List Char) : likeMatch [] s = true ↔ s = [] := by
  cases s <;> simp [likeMatch]

theorem likeMatch_pct_iff (ps s : List Char) :
    likeMatch ('%' :: ps) s = true ↔ ∃ t, t <:+ s ∧ likeMatch ps t = true := by
  simp [likeMatch, List.any_eq_true, List.mem_tails]

/-- A pattern fragment with no LIKE metacharacter. -/
def noMetaL (l : List Char) : Prop := ∀ c ∈ l, c ≠ '%' ∧ c ≠ '_'

theorem likeMatch_lit_pct (ps : List Char) (h : noMetaL ps) :
    ∀ s : List Char, likeMatch (ps ++ ['%']) s = true ↔
      ps.map Char.toLower <+: s.map Char.toLower := by
  induction ps with
  | nil =>
    intro s
    simp only [List.nil_append, List.map_nil]
    rw [likeMatch_pct_iff]
    constructor
    · intro _
      exact List.nil_prefix
    · intro _
      exact ⟨[], List.nil_suffix, by simp [likeMatch]⟩
  | cons p ps ih =>
    intro s
    have hp := h p (List.mem_cons_self p ps)
    have hps : noMetaL ps := fun c hc => h c (List.mem_cons_of_mem p hc)
    cases s with
    | nil =>
      simp only [List.cons_append, List.map_cons, List.map_nil]
      constructor
      · intro habs
        rw [show likeMatch (p :: (ps ++ ['%'])) [] = false by
          simp [likeMatch, hp.1]] at habs
        exact absurd habs (by simp)
      · intro habs
        exact absurd habs (by simp)
    | cons c s2 =>
      have hstep : likeMatch (p :: (ps ++ ['%'])) (c :: s2) =
          (((p == '_') || lowerEq p c) && likeMatch (ps ++ ['%']) s2) := by
        simp [likeMatch, hp.1]
      rw [List.cons_append, hstep]
      simp only [List.map_cons, List.cons_prefix_cons]
      rw [Bool.and_eq_true, Bool.or_eq_true]
      constructor
      · rintro ⟨hc, hrest⟩
        rcases hc with hu | hl
        · exact absurd (by simpa using hu) hp.2
        · exact ⟨by simpa [lowerEq] using hl, (ih hps s2).mp hrest⟩
      · rintro ⟨hc, hrest⟩
        exact ⟨Or.inr (by simpa [lowerEq] using hc), (ih hps s2).mpr hrest⟩

/-- The pattern `%q%` built from a metacharacter-free search string matches a
string exactly when `q` occurs in it up to ASCII case — SQL LIKE agrees with
case-insensitive substring search on such search strings. -/
theorem likeMatch_contains_iff (q s : List Char) (h : noMetaL q) :
    likeMatch ('%' :: (q ++ ['%'])) s = true ↔
      q.map Char.toLower <:+: s.map Char.toLower := by
  rw [likeMatch_pct_iff]
  constructor
  · rintro ⟨t, hts, hm⟩
    have hpre := (likeMatch_lit_pct q h t).mp hm
    exact List.infix_iff_prefix_suffix.mpr ⟨t.map Char.toLower, hpre, hts.map Char.toLower⟩
  · intro hinf
    rcases List.infix_iff_prefix_suffix.mp hinf with ⟨t2, hpre, hsuf⟩
    rcases hsuf with ⟨u, hu⟩
    rcases List.map_eq_append_iff.mp hu.symm with ⟨s1, s2, hs, _, hmap2⟩
    refine ⟨s2, ⟨s1, hs.symm⟩, (likeMatch_lit_pct q h s2).mpr ?_⟩
    rw [hmap2]
    exact hpre

theorem noMetaL_of_noMeta {q : String} (h : noMeta q) : noMetaL q.data := h

/-- For a metacharacter-free search string the code's free-text disjunct is
exactly the spec's case-insensitive substring disjunct. -/
theorem textMatch_iff_spec (q : String) (h : noMeta q) (b : Booking) :
    textMatch q b = true ↔ specTextMatch q b := by
  have hopt : ∀ o : Option String, likeOpt q o = true ↔ specContainsOpt q o := by
    intro o
    cases o with
    | none => simp [likeOpt, specContainsOpt]
    | some f =>
      simp only [likeOpt, specContainsOpt]
      exact likeMatch_contains_iff q.data f.data (noMetaL_of_noMeta h)
  simp only [textMatch, specTextMatch, Bool.or_eq_true]
  rw [hopt (some b.guest_name), hopt b.email, hopt b.phone, hopt b.notes]
  simp only [specContainsOpt, specContainsCI]
  tauto

theorem fetchPred_iff {start end_ : Option Int} {status room search : Option String}
    {b : Booking} :
    fetchPred start end_ status room search b = true ↔
      (∀ s, start = some s → b.check_out > s) ∧
      (∀ e, end_ = some e → b.check_in < e) ∧
      (∀ v, status = some v → v ≠ "" → v ≠ "Tutte" → b.status = v) ∧
      (∀ v, room = some v → v ≠ "" → v ≠ "Tutte" → b.room = v) ∧
      (∀ q, search = some q → q ≠ "" → textMatch q b = true) := by
  unfold fetchPred
  simp only [Bool.and_eq_true]
  constructor
  · rintro ⟨⟨⟨⟨h1, h2⟩, h3⟩, h4⟩, h5⟩
    refine ⟨?_, ?_, ?_, ?_, ?_⟩
    · rintro s rfl
      simpa using h1
    · rintro e rfl
      simpa using h2
    · rintro v rfl hv1 hv2
      dsimp only at h3
      rw [if_pos ⟨hv1, hv2⟩] at h3
      exact beq_iff_eq.mp h3
    · rintro v rfl hv1 hv2
      dsimp only at h4
      rw [if_pos ⟨hv1, hv2⟩] at h4
      exact beq_iff_eq.mp h4
    · rintro q rfl hq
      dsimp only at h5
      rw [if_pos hq] at h5
      exact h5
  · rintro ⟨h1, h2, h3, h4, h5⟩
    refine ⟨⟨⟨⟨?_, ?_⟩, ?_⟩, ?_⟩, ?_⟩
    · cases start with
      | none => rfl
      | some s => simpa using h1 s rfl
    · cases end_ with
      | none => rfl
      | some e => simpa using h2 e rfl
    · cases status with
      | none => rfl
      | some v =>
        dsimp only
        by_cases hv : v ≠ "" ∧ v ≠ "Tutte"
        · rw [if_pos hv]
          exact beq_iff_eq.mpr (h3 v rfl hv.1 hv.2)
        · rw [if_neg hv]
    · cases room with
      | none => rfl
      | some v =>
        dsimp only
        by_cases hv : v ≠ "" ∧ v ≠ "Tutte"
        · rw [if_pos hv]
          exact beq_iff_eq.mpr (h4 v rfl hv.1 hv.2)
        · rw [if_neg hv]
    · cases search with
      | none => rfl
      | some q =>
        dsimp only
        by_cases hq : q ≠ ""
        · rw [if_pos hq]
          exact h5 q rfl hq
        · rw [if_neg hq]

/-- C5 counterexample: with the search string "%" (which no stored field
contains as a literal substring), `fetch_bookings` still returns the stored
booking — the raw search string reaches SQL inside the LIKE pattern, so it
matches everything, contradicting "returned exactly when ... the search
string occurs ... as a substring of guest_name, email, phone, or notes". -/
theorem fetch_substring_cex :
    fixBooking ∈ fetch_bookings none none none none (some "%") fixStore ∧
    ¬ specTextMatch "%" fixBooking := by
  constructor
  · decide
  · decide

/-- C5 as amended: `fetch_bookings` applies its optional filters
conjunctively — a booking is returned exactly when it passes every supplied
filter: `check_out > range.start`, `check_in < range.end`, status equality,
room equality, and the free-text filter as the SQL predicate
`LIKE '%search%'` over guest_name, email, phone and notes
(ASCII-case-insensitive, with `%` and `_` as wildcards; equal to
case-insensitive substring matching only for metacharacter-free search
strings) — and the result is ordered by `check_in` ascending. -/
theorem fetchBookings_characterization (start end_ : Option Int)
    (status room search : Option String) (st : Store) (b : Booking) :
    (b ∈ fetch_bookings start end_ status room search st ↔
      b ∈ st.bookings ∧
      (∀ s, start = some s → b.check_out > s) ∧
      (∀ e, end_ = some e → b.check_in < e) ∧
      (∀ v, status = some v → v ≠ "" → v ≠ "Tutte" → b.status = v) ∧
      (∀ v, room = some v → v ≠ "" → v ≠ "Tutte" → b.room = v) ∧
      (∀ q, search = some q → q ≠ "" → textMatch q b = true)) ∧
    (fetch_bookings start end_ status room search st).Sorted byCheckIn := by
  constructor
  · rw [mem_fetch_iff, fetchPred_iff]
  · exact sorted_fetch start end_ status room search st

/-- A second stored booking, later check-in, no `%` or `_` in any field. -/
def otherBooking : Booking :=
  ⟨2, "Luca Neri", none, some "+39 333", "Booking", "Camera 2", "In attesa",
   5, 8, 1, 0, some "nota", none, none, 0, 0⟩

/-- A two-booking store for the wildcard counterexample. -/
def likeStore : Store := ⟨[fixBooking, otherBooking], 3⟩

/-- C10: the free-text search splices the raw search string into the SQL
LIKE pattern `'%search%'`, so `%` and `_` act as wildcards: searching "%"
returns every stored booking although no field of any of them contains the
character "%"; and for search strings free of `%` and `_` the LIKE filter
coincides exactly with documented case-insensitive substring matching. -/
theorem like_wildcard_semantics (q : String) (b : Booking) :
    (fetch_bookings none none none none (some "%") likeStore = likeStore.bookings ∧
      ∀ c ∈ likeStore.bookings, ¬ specTextMatch "%" c) ∧
    (noMeta q → (textMatch q b = true ↔ specTextMatch q b)) := by
  refine ⟨⟨?_, ?_⟩, ?_⟩
  · decide
  · decide
  · intro h
    exact textMatch_iff_spec q h b

end Parallelo
